import Mathlib

/-!
Shallow embedding of the `big_o` crate: a library that infers the asymptotic
growth class of measured data by fitting eight canonical growth models
(constant, logarithmic, linear, linearithmic, quadratic, cubic, polynomial,
exponential) through a per-model linearization, a least-squares line fit, a
per-model delinearization, a true-space residual, a validity filter and a
residual-based selection.

Modelling conventions:
* `f64` values are modelled by `F`: an exact rational for finite doubles plus
  `nan` and the two infinities.  The claims under study are data-flow
  properties (which field is set, which branch is taken, which error is
  returned, how lists are ordered), none of which depend on the rounding of
  finite double arithmetic, so finite arithmetic is exact.
* The transcendental primitives `ln`, `exp` and `powf` come from the Rust
  standard library, not from the repository; they are abstracted as a
  `FloatOps` parameter and the theorems hold for every interpretation.
* The least-squares solver (`linalg::fit_line`, a thin wrapper over the
  external `nalgebra`/`lstsq` crates) is abstracted as a `Solver` parameter.
-/

/-- Model of an `f64` value: an exact rational for finite doubles, plus NaN
and the two infinities. -/
inductive F where
  | fin (q : ℚ) : F
  | nan : F
  | inf : F
  | ninf : F
deriving DecidableEq, Repr

/-- IEEE-style finiteness test (`f64::is_finite`). -/
def F.isFinite : F → Bool
  | .fin _ => true
  | _ => false

/-- IEEE negation. -/
def F.neg : F → F
  | .fin q => .fin (-q)
  | .nan => .nan
  | .inf => .ninf
  | .ninf => .inf

/-- IEEE addition with exact finite arithmetic. -/
def F.add : F → F → F
  | .nan, _ => .nan
  | _, .nan => .nan
  | .fin a, .fin b => .fin (a + b)
  | .inf, .ninf => .nan
  | .ninf, .inf => .nan
  | .inf, _ => .inf
  | _, .inf => .inf
  | .ninf, _ => .ninf
  | _, .ninf => .ninf

/-- IEEE subtraction, `a - b = a + (-b)`. -/
def F.sub (a b : F) : F := F.add a (F.neg b)

/-- IEEE multiplication with exact finite arithmetic. -/
def F.mul : F → F → F
  | .nan, _ => .nan
  | _, .nan => .nan
  | .fin a, .fin b => .fin (a * b)
  | .inf, .fin b => if b = 0 then .nan else if 0 < b then .inf else .ninf
  | .fin a, .inf => if a = 0 then .nan else if 0 < a then .inf else .ninf
  | .ninf, .fin b => if b = 0 then .nan else if 0 < b then .ninf else .inf
  | .fin a, .ninf => if a = 0 then .nan else if 0 < a then .ninf else .inf
  | .inf, .inf => .inf
  | .inf, .ninf => .ninf
  | .ninf, .inf => .ninf
  | .ninf, .ninf => .inf

/-- IEEE absolute value (`f64::abs`). -/
def F.abs : F → F
  | .fin q => .fin |q|
  | .nan => .nan
  | _ => .inf

/-- The squaring `x.powi(2)`; `powi` lowers to repeated multiplication, which
is exact in the rational model. -/
def F.powi2 (x : F) : F := F.mul x x

/-- The cubing `x.powi(3)` as repeated multiplication. -/
def F.powi3 (x : F) : F := F.mul (F.mul x x) x

/-- IEEE `<` comparison: comparisons with NaN are false. -/
def F.lt : F → F → Bool
  | .fin a, .fin b => decide (a < b)
  | .nan, _ => false
  | _, .nan => false
  | .ninf, .ninf => false
  | .ninf, _ => true
  | _, .ninf => false
  | .inf, _ => false
  | _, .inf => true

/-- IEEE `<=` comparison. -/
def F.le (a b : F) : Bool := F.lt a b || decide (a ≠ F.nan ∧ a = b)

/-- Tolerance used by `validate.rs` (`const EPSILON: f64 = 1e-5`), as an exact
rational. -/
def EPSILON : ℚ := 1 / 100000

/-- The `float_cmp::approx_eq!(f64, a, b, epsilon = EPSILON)` check of
`validate.rs`.  In the source every right-hand side is one of the finite
literals 0, 1, 2, 3, for which the crate's additional 4-ulp clause can never
fire when the absolute `1e-5` clause fails, so the absolute comparison is an
exact model of each use; comparisons involving NaN or infinities are false. -/
def F.approxEq (a b : F) : Bool :=
  match a, b with
  | .fin x, .fin y => decide (|x - y| ≤ EPSILON)
  | _, _ => false

/-- The Rust cast `as u32` applied to an `f64`: NaN goes to 0, the value is
truncated toward zero and saturated to `[0, u32::MAX]`. -/
def F.toU32 : F → Nat
  | .fin q => if q ≤ 0 then 0 else min (q.num.toNat / q.den) 4294967295
  | .nan => 0
  | .inf => 4294967295
  | .ninf => 0

/-- `name::Name`: the eight supported growth classes. -/
inductive Name where
  | Constant
  | Logarithmic
  | Linear
  | Linearithmic
  | Quadratic
  | Cubic
  | Polynomial
  | Exponential
deriving DecidableEq, Repr

/-- `name::all_names()`: the catalog iteration order. -/
def all_names : List Name :=
  [.Constant, .Logarithmic, .Linear, .Linearithmic, .Quadratic, .Cubic,
   .Polynomial, .Exponential]

/-- The Big-O string of each model (`name.rs`, the function returning the
static notation string). -/
def notationOf : Name → String
  | .Constant => "O(1)"
  | .Logarithmic => "O(log n)"
  | .Linear => "O(n)"
  | .Linearithmic => "O(n log n)"
  | .Quadratic => "O(n^2)"
  | .Cubic => "O(n^3)"
  | .Polynomial => "O(n^m)"
  | .Exponential => "O(c^n)"

/-- ASCII lowercasing, modelling `str::to_lowercase`; the two coincide on
every recognized pattern, which are all ASCII. -/
def asciiLower (s : String) : String := String.mk (s.data.map Char.toLower)

/-- `TryFrom<&str> for Name` (`name.rs`): case-insensitive match of either
notation strings or model names; the Rust error payload is a static
explanatory string. -/
def name_try_from (s : String) : Except String Name :=
  let l := asciiLower s
  if l = "o(1)" ∨ l = "constant" then .ok .Constant
  else if l = "o(log n)" ∨ l = "logarithmic" then .ok .Logarithmic
  else if l = "o(n)" ∨ l = "linear" then .ok .Linear
  else if l = "o(n log n)" ∨ l = "linearithmic" then .ok .Linearithmic
  else if l = "o(n^2)" ∨ l = "quadratic" then .ok .Quadratic
  else if l = "o(n^3)" ∨ l = "cubic" then .ok .Cubic
  else if l = "o(n^m)" ∨ l = "polynomial" then .ok .Polynomial
  else if l = "o(c^n)" ∨ l = "exponential" then .ok .Exponential
  else .error "cannot convert string to Name"

/-- `params::Params`: five independently optional numeric fields, in the
source's declaration order. -/
structure Params where
  gain : Option F
  offset : Option F
  residuals : Option F
  power : Option F
  base : Option F
deriving DecidableEq, Repr

/-- `Params::new().build()`: the all-unset record. -/
def Params.empty : Params :=
  { gain := none, offset := none, residuals := none, power := none, base := none }

/-- `error::Error`, with the source's variant names. -/
inductive Error where
  | LSTSQError (msg : String)
  | ParseNotationError
  | MissingFunctionCoeffsError
  | MissingPolynomialPower
  | InvalidInput (msg : String)
  | NoValidComplexity
deriving DecidableEq, Repr

/-- `complexity::Complexity`: the fit result record. -/
structure Complexity where
  name : Name
  notationStr : String
  params : Params
  rank : Nat
deriving DecidableEq, Repr

/-- The `f64` transcendental primitives used by the crate; they live in the
Rust standard library, outside this repository, so the embedding takes them
as an abstract parameter. -/
structure FloatOps where
  ln : F → F
  exp : F → F
  powf : F → F → F

/-- Abstract interface of `linalg::fit_line` (a thin wrapper over the
external `nalgebra`/`lstsq` crates): from linearized pairs it returns
`(gain, offset, residuals)` or an error (in the source always
`Error::LSTSQError`). -/
def Solver : Type := List (F × F) → Except Error (F × F × F)

/-- `complexity::linearize`: per-model transform of an input point into the
line-fitting space. -/
def linearize (ops : FloatOps) (name : Name) (x y : F) : F × F :=
  match name with
  | .Constant => (F.fin 0, y)
  | .Logarithmic => (ops.ln x, y)
  | .Linear => (x, y)
  | .Linearithmic => (F.mul x (ops.ln x), y)
  | .Quadratic => (F.powi2 x, y)
  | .Cubic => (F.powi3 x, y)
  | .Polynomial => (ops.ln x, ops.ln y)
  | .Exponential => (x, ops.ln y)

/-- `complexity::delinearize`: maps fitted line coefficients back to
model-specific parameters.  First the coefficient pair is transformed
(`Polynomial` and `Exponential` re-exponentiate), then it is assigned to the
model's fields. -/
def delinearize (ops : FloatOps) (name : Name) (gain offset : F) : Params :=
  let ab : F × F :=
    match name with
    | .Polynomial => (ops.exp offset, gain)
    | .Exponential => (ops.exp offset, ops.exp gain)
    | _ => (gain, offset)
  match name with
  | .Polynomial =>
    { gain := some ab.1, offset := none, residuals := none, power := some ab.2, base := none }
  | .Exponential =>
    { gain := some ab.1, offset := none, residuals := none, power := none, base := some ab.2 }
  | _ =>
    { gain := some ab.1, offset := some ab.2, residuals := none, power := none, base := none }

/-- `complexity::get_function`: the approximation function `f(x)` of a fitted
model, or `MissingFunctionCoeffsError` when the model's two coefficients are
not both present. -/
def get_function (ops : FloatOps) (name : Name) (params : Params) :
    Except Error (F → F) :=
  let ab : Option F × Option F :=
    match name with
    | .Polynomial => (params.gain, params.power)
    | .Exponential => (params.gain, params.base)
    | _ => (params.gain, params.offset)
  match ab with
  | (some a, some b) =>
    .ok (match name with
      | .Constant => fun _ => b
      | .Logarithmic => fun x => F.add (F.mul a (ops.ln x)) b
      | .Linear => fun x => F.add (F.mul a x) b
      | .Linearithmic => fun x => F.add (F.mul (F.mul a x) (ops.ln x)) b
      | .Quadratic => fun x => F.add (F.mul a (F.powi2 x)) b
      | .Cubic => fun x => F.add (F.mul a (F.powi3 x)) b
      | .Polynomial => fun x => F.mul a (ops.powf x b)
      | .Exponential => fun x => F.mul a (ops.powf b x))
  | _ => .error .MissingFunctionCoeffsError

/-- `complexity::calculate_residuals`: the sum of `|y - f(x)|` over the data,
folded from `0.0` in order as Rust's `Iterator::sum` does. -/
def calculate_residuals (ops : FloatOps) (name : Name) (params : Params)
    (data : List (F × F)) : Except Error F := do
  let f ← get_function ops name params
  pure (data.foldl (fun acc xy => F.add acc (F.abs (F.sub xy.2 (f xy.1)))) (F.fin 0))

/-- `complexity::rank`: the integer comparison rank of each model. -/
def rank (name : Name) (params : Params) : Except Error Nat :=
  match name with
  | .Constant => .ok 0
  | .Logarithmic => .ok 130
  | .Linear => .ok 1000
  | .Linearithmic => .ok 1130
  | .Quadratic => .ok 2000
  | .Cubic => .ok 3000
  | .Polynomial =>
    match params.power with
    | some power => .ok (min (F.toU32 (F.mul (F.fin 1000) power)) 1000000)
    | none => .error .MissingPolynomialPower
  | .Exponential => .ok 1000000

/-- Modelled from the spec: `validate::check_input` is called by
`complexity::fit` but its definition is missing from the sources.  Following
the spec (input validation rejects an empty data set, or one in which every
point is `(0, 0)`, with `InvalidInput`), it errors exactly on those inputs. -/
def check_input (_name : Name) (data : List (F × F)) : Except Error Unit :=
  if data.isEmpty then .error (.InvalidInput "empty input data")
  else if data.all (fun p => p.1 = F.fin 0 ∧ p.2 = F.fin 0) then
    .error (.InvalidInput "all data points are zero")
  else .ok ()

/-- `complexity::fit`: linearize, solve the line fit, delinearize, compute
the true-space residual, store it in the params and compute the rank. -/
def fit (ops : FloatOps) (solver : Solver) (name : Name) (data : List (F × F)) :
    Except Error Complexity := do
  check_input name data
  let linearized := data.map (fun xy => linearize ops name xy.1 xy.2)
  let (gain, offset, _residuals) ← solver linearized
  let params := delinearize ops name gain offset
  let residuals ← calculate_residuals ops name params data
  let params2 : Params := { params with residuals := some residuals }
  let r ← rank name params2
  pure { name := name, notationStr := notationOf name, params := params2, rank := r }

/-- `ComplexityBuilder::build`: params default to the all-unset record; the
rank is computed from them, so a `Polynomial` without a power fails. -/
def buildComplexity (name : Name) (paramsOpt : Option Params) :
    Except Error Complexity := do
  let params := paramsOpt.getD Params.empty
  let r ← rank name params
  pure { name := name, notationStr := notationOf name, params := params, rank := r }

/-- `complexity::complexity`: baseline `Complexity` from a string.  The
parse failure is surfaced as `ParseNotationError`, the variant `error.rs`
documents for strings that cannot be parsed into a `Name` (the `From`
conversion itself sits in glue code outside the given sources). -/
def complexity (s : String) : Except Error Complexity :=
  match name_try_from s with
  | .error _ => .error .ParseNotationError
  | .ok n => buildComplexity n none

/-- The gain-degeneracy branch of `validate::is_degraded`: any non-Constant
model whose gain is approximately 0 collapses to Constant. -/
def degradedGain (name : Name) (p : Params) : Option Name :=
  if name = Name.Constant then none
  else
    match p.gain with
    | some value => if F.approxEq value (F.fin 0) then some Name.Constant else none
    | none => none

/-- The in-order scan of a degeneracy case table, as the `for` loop of
`validate::is_degraded` does. -/
def firstApprox (x : F) : List (ℚ × Name) → Option Name
  | [] => none
  | qn :: rest => if F.approxEq x (F.fin qn.1) then some qn.2 else firstApprox x rest

/-- The Polynomial branch of `validate::is_degraded`: power approximately
0, 1, 2 or 3 collapses to Constant, Linear, Quadratic, Cubic. -/
def degradedPoly (name : Name) (p : Params) : Option Name :=
  match name, p.power with
  | .Polynomial, some power =>
    firstApprox power
      [(0, .Constant), (1, .Linear), (2, .Quadratic), (3, .Cubic)]
  | _, _ => none

/-- The Exponential branch of `validate::is_degraded`: base approximately
0 or 1 collapses to Constant. -/
def degradedExp (name : Name) (p : Params) : Option Name :=
  match name, p.base with
  | .Exponential, some base => firstApprox base [(0, .Constant), (1, .Constant)]
  | _, _ => none

/-- `validate::is_degraded`: the three checks in source order with early
return. -/
def is_degraded (name : Name) (p : Params) : Option Name :=
  match degradedGain name p with
  | some n => some n
  | none =>
    match degradedPoly name p with
    | some n => some n
    | none => degradedExp name p

/-- `validate::is_valid`: reject missing or non-finite residuals, a missing
or negative gain (`gain.unwrap_or(-1.0) < 0.0`), and degraded fits. -/
def is_valid (c : Complexity) : Bool :=
  if !(c.params.residuals.getD F.nan).isFinite then false
  else if F.lt (c.params.gain.getD (F.fin (-1))) (F.fin 0) then false
  else if (is_degraded c.name c.params).isSome then false
  else true

/-- The fit-and-filter loop of `infer_complexity` (`lib.rs`): fit every
catalog model in order, abort on the first fit error, keep the fits the
validity filter accepts, in catalog order. -/
def fitValid (ops : FloatOps) (solver : Solver) (data : List (F × F)) :
    List Name → Except Error (List Complexity)
  | [] => .ok []
  | n :: rest => do
    let c ← fit ops solver n data
    let cs ← fitValid ops solver data rest
    pure (if is_valid c then c :: cs else cs)

/-- The sort key of `fitted.sort_by(|a, b| a.params.residuals.partial_cmp(&b.params.residuals).unwrap())`.
The derived order on `Option<f64>` puts `None` below `Some`, and `Some`
values compare by value with the infinities at the ends.  The one place the
Rust comparator is undefined - both residuals present and at least one NaN,
where `unwrap` would panic - is unreachable in `infer_complexity` because
every survivor of `is_valid` has a finite residual (proved in the C1
theorem); the key extends that order totally by putting NaN above
everything, so the comparison is lawful on all of `F`. -/
def resKey (r : Option F) : ℚ × ℚ :=
  match r with
  | none => (0, 0)
  | some .ninf => (1, 0)
  | some (.fin q) => (2, q)
  | some .inf => (3, 0)
  | some .nan => (4, 0)

/-- Lexicographic comparison of sort keys. -/
def keyLe (a b : ℚ × ℚ) : Bool :=
  decide (a.1 < b.1) || (decide (a.1 = b.1) && decide (a.2 ≤ b.2))

/-- The ascending-by-residual comparison used to sort the surviving fits. -/
def resLe (a b : Complexity) : Bool :=
  keyLe (resKey a.params.residuals) (resKey b.params.residuals)

/-- Result of `infer_complexity`: the Ok pair, a propagated error, or the
panic of `fitted[0]` on an empty survivor list (the `lib.rs` in the sources
indexes without an emptiness check). -/
inductive InferResult where
  | ok (best : Complexity) (all : List Complexity) : InferResult
  | error (e : Error) : InferResult
  | panicked : InferResult
deriving DecidableEq, Repr

/-- `infer_complexity` (`lib.rs`): fit all catalog models, keep the valid
fits, sort them ascending by residual with Rust's stable `sort_by`
(modelled by the stable `List.insertionSort`: both produce the unique
stable ascending order of a total preorder), and return the first as best
together with the whole sorted list. -/
def infer_complexity (ops : FloatOps) (solver : Solver) (data : List (F × F)) :
    InferResult :=
  match fitValid ops solver data all_names with
  | .error e => .error e
  | .ok fitted =>
    match fitted.insertionSort (fun a b => resLe a b = true) with
    | [] => .panicked
    | best :: rest => .ok best (best :: rest)

/-- The claim-side model function table (spec section 4.2): the actual model
function in original space, read off the fitted parameters.  Written from
the claim's wording, to be compared with `get_function`. -/
def specFunction (ops : FloatOps) (name : Name) (p : Params) : Option (F → F) :=
  match name with
  | .Constant => p.offset.map (fun b _ => b)
  | .Logarithmic =>
    match p.gain, p.offset with
    | some a, some b => some (fun x => F.add (F.mul a (ops.ln x)) b)
    | _, _ => none
  | .Linear =>
    match p.gain, p.offset with
    | some a, some b => some (fun x => F.add (F.mul a x) b)
    | _, _ => none
  | .Linearithmic =>
    match p.gain, p.offset with
    | some a, some b => some (fun x => F.add (F.mul (F.mul a x) (ops.ln x)) b)
    | _, _ => none
  | .Quadratic =>
    match p.gain, p.offset with
    | some a, some b => some (fun x => F.add (F.mul a (F.mul x x)) b)
    | _, _ => none
  | .Cubic =>
    match p.gain, p.offset with
    | some a, some b => some (fun x => F.add (F.mul a (F.mul (F.mul x x) x)) b)
    | _, _ => none
  | .Polynomial =>
    match p.gain, p.power with
    | some a, some b => some (fun x => F.mul a (ops.powf x b))
    | _, _ => none
  | .Exponential =>
    match p.gain, p.base with
    | some a, some b => some (fun x => F.mul a (ops.powf b x))
    | _, _ => none

/-- The claim-side true residual: the sum over the observed points of
`|y - f(x)|` with `f` the model function of `specFunction`. -/
def specResiduals (ops : FloatOps) (name : Name) (p : Params)
    (data : List (F × F)) : Option F :=
  (specFunction ops name p).map
    (fun f => data.foldl (fun acc xy => F.add acc (F.abs (F.sub xy.2 (f xy.1)))) (F.fin 0))

/-- A concrete interpretation of the abstract float primitives, used only to
evaluate the development on closed inputs. -/
def simpleOps : FloatOps := { ln := fun x => x, exp := fun x => x, powf := F.mul }

/-- A concrete solver stub returning the line `f(u) = u + 2` with zero
residual, used only to evaluate the development on closed inputs. -/
def stubSolver : Solver := fun _ => .ok (F.fin 1, F.fin 2, F.fin 0)

instance {ε α : Type} [DecidableEq ε] [DecidableEq α] : DecidableEq (Except ε α)
  | .ok a, .ok b =>
    if h : a = b then .isTrue (by rw [h]) else .isFalse (fun hh => h (Except.ok.inj hh))
  | .ok _, .error _ => .isFalse (fun h => nomatch h)
  | .error _, .ok _ => .isFalse (fun h => nomatch h)
  | .error e, .error f =>
    if h : e = f then .isTrue (by rw [h]) else .isFalse (fun hh => h (Except.error.inj hh))

/-- The Constant fit of the closed example run
`infer_complexity simpleOps stubSolver [(1, 3)]`. -/
def egConstant : Complexity :=
  { name := .Constant, notationStr := "O(1)",
    params := { gain := some (F.fin 1), offset := some (F.fin 2),
                residuals := some (F.fin 1), power := none, base := none },
    rank := 0 }

/-- The Logarithmic fit of the closed example run. -/
def egLogarithmic : Complexity :=
  { name := .Logarithmic, notationStr := "O(log n)",
    params := { gain := some (F.fin 1), offset := some (F.fin 2),
                residuals := some (F.fin 0), power := none, base := none },
    rank := 130 }

/-- The Linear fit of the closed example run. -/
def egLinear : Complexity :=
  { name := .Linear, notationStr := "O(n)",
    params := { gain := some (F.fin 1), offset := some (F.fin 2),
                residuals := some (F.fin 0), power := none, base := none },
    rank := 1000 }

/-- The Linearithmic fit of the closed example run. -/
def egLinearithmic : Complexity :=
  { name := .Linearithmic, notationStr := "O(n log n)",
    params := { gain := some (F.fin 1), offset := some (F.fin 2),
                residuals := some (F.fin 0), power := none, base := none },
    rank := 1130 }

/-- The Quadratic fit of the closed example run. -/
def egQuadratic : Complexity :=
  { name := .Quadratic, notationStr := "O(n^2)",
    params := { gain := some (F.fin 1), offset := some (F.fin 2),
                residuals := some (F.fin 0), power := none, base := none },
    rank := 2000 }

/-- The Cubic fit of the closed example run. -/
def egCubic : Complexity :=
  { name := .Cubic, notationStr := "O(n^3)",
    params := { gain := some (F.fin 1), offset := some (F.fin 2),
                residuals := some (F.fin 0), power := none, base := none },
    rank := 3000 }

/-- The Polynomial fit of the closed example run (rejected by the validity
filter: its power 1 is degenerate Linear). -/
def egPolynomial : Complexity :=
  { name := .Polynomial, notationStr := "O(n^m)",
    params := { gain := some (F.fin 2), offset := none,
                residuals := some (F.fin 1), power := some (F.fin 1), base := none },
    rank := 1000 }

/-- The Exponential fit of the closed example run (rejected by the validity
filter: its base 1 is degenerate Constant). -/
def egExponential : Complexity :=
  { name := .Exponential, notationStr := "O(c^n)",
    params := { gain := some (F.fin 2), offset := none,
                residuals := some (F.fin 1), power := none, base := some (F.fin 1) },
    rank := 1000000 }

/-- The sorted survivor list of the closed example run: the five
zero-residual fits in catalog order, then the Constant fit with residual 1. -/
def egSorted : List Complexity :=
  [egLogarithmic, egLinear, egLinearithmic, egQuadratic, egCubic, egConstant]

/-! ## Helper lemmas -/

/-- Transitivity of the lexicographic key comparison. -/
theorem keyLe_trans {a b c : ℚ × ℚ} (h1 : keyLe a b = true) (h2 : keyLe b c = true) :
    keyLe a c = true := by
  simp only [keyLe, Bool.or_eq_true, Bool.and_eq_true, decide_eq_true_eq] at h1 h2 ⊢
  rcases h1 with h1 | ⟨e1, l1⟩ <;> rcases h2 with h2 | ⟨e2, l2⟩
  · exact Or.inl (lt_trans h1 h2)
  · exact Or.inl (lt_of_lt_of_le h1 (le_of_eq e2))
  · exact Or.inl (lt_of_le_of_lt (le_of_eq e1) h2)
  · exact Or.inr ⟨e1.trans e2, le_trans l1 l2⟩

/-- Totality of the lexicographic key comparison. -/
theorem keyLe_total (a b : ℚ × ℚ) : (keyLe a b || keyLe b a) = true := by
  simp only [keyLe, Bool.or_eq_true, Bool.and_eq_true, decide_eq_true_eq]
  rcases lt_trichotomy a.1 b.1 with h | h | h
  · exact Or.inl (Or.inl h)
  · rcases le_total a.2 b.2 with h2 | h2
    · exact Or.inl (Or.inr ⟨h, h2⟩)
    · exact Or.inr (Or.inr ⟨h.symm, h2⟩)
  · exact Or.inr (Or.inl h)

/-- Transitivity of the residual comparison. -/
theorem resLe_trans {a b c : Complexity} (h1 : resLe a b = true) (h2 : resLe b c = true) :
    resLe a c = true := keyLe_trans h1 h2

/-- Totality of the residual comparison. -/
theorem resLe_total (a b : Complexity) : (resLe a b || resLe b a) = true :=
  keyLe_total _ _

/-- A degraded complexity is rejected by the validity filter. -/
theorem is_valid_false_of_degraded (c : Complexity)
    (h : (is_degraded c.name c.params).isSome = true) : is_valid c = false := by
  unfold is_valid
  split
  · rfl
  · split
    · rfl
    · simp [h]

/-- A complexity accepted by the validity filter has a finite residual. -/
theorem is_valid_residual_fin {c : Complexity} (h : is_valid c = true) :
    ∃ q : ℚ, c.params.residuals = some (F.fin q) := by
  unfold is_valid at h
  cases hres : c.params.residuals with
  | none => rw [hres] at h; simp [F.isFinite] at h
  | some r =>
    rw [hres] at h
    cases r with
    | fin q => exact ⟨q, rfl⟩
    | nan => simp [F.isFinite] at h
    | inf => simp [F.isFinite] at h
    | ninf => simp [F.isFinite] at h


/-- Unfolding step of the fit-and-filter loop on a successful fit. -/
theorem fitValid_cons_ok {ops : FloatOps} {solver : Solver} {data : List (F × F)}
    {n : Name} {rest : List Name} {c : Complexity} {cs : List Complexity}
    (hc : fit ops solver n data = .ok c)
    (hrest : fitValid ops solver data rest = .ok cs) :
    fitValid ops solver data (n :: rest) = .ok (if is_valid c then c :: cs else cs) := by
  unfold fitValid
  rw [hc, hrest]
  rfl

/-- Every member of a successful fit-and-filter run passed the validity
filter. -/
theorem fitValid_ok_valid {ops : FloatOps} {solver : Solver} {data : List (F × F)} :
    ∀ {names : List Name} {l : List Complexity},
      fitValid ops solver data names = .ok l → ∀ c ∈ l, is_valid c = true := by
  intro names
  induction names with
  | nil =>
    intro l h c hc
    unfold fitValid at h
    cases h
    cases hc
  | cons n rest ih =>
    intro l h c hc
    unfold fitValid at h
    cases hf : fit ops solver n data with
    | error e =>
      rw [hf] at h
      simp only [bind, Except.bind] at h
      exact Except.noConfusion h
    | ok c0 =>
      rw [hf] at h
      cases hr : fitValid ops solver data rest with
      | error e =>
        rw [hr] at h
        simp only [bind, Except.bind] at h
        exact Except.noConfusion h
      | ok cs =>
        rw [hr] at h
        simp only [bind, Except.bind, pure, Except.pure, Except.ok.injEq] at h
        by_cases hv : is_valid c0 = true
        · rw [if_pos hv] at h
          subst h
          rcases List.mem_cons.mp hc with rfl | hmem
          · exact hv
          · exact ih hr c hmem
        · rw [if_neg hv] at h
          subst h
          exact ih hr c hc

/-! ## C7: the linearization table -/

/-- C7: for every input point `(x, y)`, `linearize` maps it per model to:
Constant `(0, y)`; Logarithmic `(ln x, y)`; Linear `(x, y)`; Linearithmic
`(x ln x, y)`; Quadratic `(x^2, y)`; Cubic `(x^3, y)`; Polynomial
`(ln x, ln y)`; Exponential `(x, ln y)`. -/
theorem C7_linearize_table (ops : FloatOps) (x y : F) :
    linearize ops .Constant x y = (F.fin 0, y) ∧
    linearize ops .Logarithmic x y = (ops.ln x, y) ∧
    linearize ops .Linear x y = (x, y) ∧
    linearize ops .Linearithmic x y = (F.mul x (ops.ln x), y) ∧
    linearize ops .Quadratic x y = (F.mul x x, y) ∧
    linearize ops .Cubic x y = (F.mul (F.mul x x) x, y) ∧
    linearize ops .Polynomial x y = (ops.ln x, ops.ln y) ∧
    linearize ops .Exponential x y = (x, ops.ln y) :=
  ⟨rfl, rfl, rfl, rfl, rfl, rfl, rfl, rfl⟩

/-! ## C3: the delinearization table -/

/-- C3 counterexample: the claim says delinearization for Constant produces
`gain = 0`, but `delinearize` passes the solver's gain through unchanged for
every non-Polynomial, non-Exponential model: with line coefficients
`(gain_lin, offset_lin) = (5, 7)` the Constant params carry gain 5, not 0.
(The gain of a Constant fit ends up 0 in practice only because the Constant
linearization sends every `x` to 0, making the solver itself return a zero
slope.) -/
theorem C3_counterexample :
    (delinearize simpleOps .Constant (F.fin 5) (F.fin 7)).gain = some (F.fin 5) ∧
    some (F.fin 5) ≠ some (F.fin 0) := by
  constructor
  · rfl
  · with_unfolding_all decide

/-- C3 amended: for every model and every pair of fitted line coefficients,
`delinearize` produces: for Polynomial `gain = exp offset_lin` and
`power = gain_lin`; for Exponential `gain = exp offset_lin` and
`base = exp gain_lin`; for every other model - Constant included -
`gain = gain_lin` and `offset = offset_lin`; and only the fields relevant to
that model are set (never `residuals`). -/
theorem C3_delinearize_table (ops : FloatOps) (g o : F) :
    delinearize ops .Polynomial g o =
      { gain := some (ops.exp o), offset := none, residuals := none,
        power := some g, base := none } ∧
    delinearize ops .Exponential g o =
      { gain := some (ops.exp o), offset := none, residuals := none,
        power := none, base := some (ops.exp g) } ∧
    delinearize ops .Constant g o =
      { gain := some g, offset := some o, residuals := none,
        power := none, base := none } ∧
    delinearize ops .Logarithmic g o =
      { gain := some g, offset := some o, residuals := none,
        power := none, base := none } ∧
    delinearize ops .Linear g o =
      { gain := some g, offset := some o, residuals := none,
        power := none, base := none } ∧
    delinearize ops .Linearithmic g o =
      { gain := some g, offset := some o, residuals := none,
        power := none, base := none } ∧
    delinearize ops .Quadratic g o =
      { gain := some g, offset := some o, residuals := none,
        power := none, base := none } ∧
    delinearize ops .Cubic g o =
      { gain := some g, offset := some o, residuals := none,
        power := none, base := none } :=
  ⟨rfl, rfl, rfl, rfl, rfl, rfl, rfl, rfl⟩

/-! ## C6: the rank table -/

/-- C6: the rank of a Complexity is exactly Constant 0, Logarithmic 130,
Linear 1000, Linearithmic 1130, Quadratic 2000, Cubic 3000, Exponential
1000000, and Polynomial `min(1000 * power, 1000000)` (the product cast to
`u32`, truncating) when the power is present; a Polynomial without a power
fails with `MissingPolynomialPower` rather than using a default. -/
theorem C6_rank_table :
    (∀ p : Params, rank .Constant p = .ok 0) ∧
    (∀ p : Params, rank .Logarithmic p = .ok 130) ∧
    (∀ p : Params, rank .Linear p = .ok 1000) ∧
    (∀ p : Params, rank .Linearithmic p = .ok 1130) ∧
    (∀ p : Params, rank .Quadratic p = .ok 2000) ∧
    (∀ p : Params, rank .Cubic p = .ok 3000) ∧
    (∀ p : Params, rank .Exponential p = .ok 1000000) ∧
    (∀ p : Params, ∀ pw, p.power = some pw →
      rank .Polynomial p = .ok (min (F.toU32 (F.mul (F.fin 1000) pw)) 1000000)) ∧
    (∀ p : Params, p.power = none →
      rank .Polynomial p = .error .MissingPolynomialPower) := by
  refine ⟨fun p => rfl, fun p => rfl, fun p => rfl, fun p => rfl, fun p => rfl,
    fun p => rfl, fun p => rfl, ?_, ?_⟩
  · intro p pw h
    unfold rank
    rw [h]
  · intro p h
    unfold rank
    rw [h]

/-- C6 witness: the Polynomial rank at power 5/2 is 2500, and the empty
params fail with `MissingPolynomialPower`. -/
theorem C6_rank_table_witness :
    rank .Polynomial { Params.empty with power := some (F.fin (5 / 2)) } =
      .ok (min (F.toU32 (F.mul (F.fin 1000) (F.fin (5 / 2)))) 1000000) ∧
    rank .Polynomial Params.empty = .error .MissingPolynomialPower ∧
    min (F.toU32 (F.mul (F.fin 1000) (F.fin (5 / 2)))) 1000000 = 2500 :=
  ⟨C6_rank_table.2.2.2.2.2.2.2.1 _ _ rfl,
   C6_rank_table.2.2.2.2.2.2.2.2 _ rfl,
   by with_unfolding_all decide⟩

/-- If some entry of a degeneracy case table matches approximately, the
in-order scan returns a hit. -/
theorem firstApprox_isSome {x : F} :
    ∀ {l : List (ℚ × Name)}, (∃ qn ∈ l, F.approxEq x (F.fin qn.1) = true) →
      (firstApprox x l).isSome = true := by
  intro l
  induction l with
  | nil => rintro ⟨qn, h, _⟩; cases h
  | cons hd tl ih =>
    rintro ⟨qn, hmem, happ⟩
    unfold firstApprox
    split
    · rfl
    · rename_i hcond
      rcases List.mem_cons.mp hmem with rfl | htl
      · exact absurd happ hcond
      · exact ih ⟨qn, htl, happ⟩

/-- A non-Constant fit whose gain is approximately zero is degraded. -/
theorem degraded_of_gain_zero {c : Complexity} {g : F} (hn : c.name ≠ .Constant)
    (hg : c.params.gain = some g) (ha : F.approxEq g (F.fin 0) = true) :
    (is_degraded c.name c.params).isSome = true := by
  have hdg : degradedGain c.name c.params = some .Constant := by
    unfold degradedGain
    rw [if_neg hn, hg]
    exact if_pos ha
  unfold is_degraded
  rw [hdg]
  rfl

/-- A Polynomial fit whose power is approximately 0, 1, 2 or 3 is
degraded. -/
theorem degraded_of_poly_power {c : Complexity} {p : F} (hn : c.name = .Polynomial)
    (hp : c.params.power = some p)
    (h : F.approxEq p (F.fin 0) = true ∨ F.approxEq p (F.fin 1) = true ∨
         F.approxEq p (F.fin 2) = true ∨ F.approxEq p (F.fin 3) = true) :
    (is_degraded c.name c.params).isSome = true := by
  have hpoly : (degradedPoly c.name c.params).isSome = true := by
    unfold degradedPoly
    rw [hn, hp]
    apply firstApprox_isSome
    rcases h with hx | hx | hx | hx
    · exact ⟨(0, .Constant), by simp, hx⟩
    · exact ⟨(1, .Linear), by simp, hx⟩
    · exact ⟨(2, .Quadratic), by simp, hx⟩
    · exact ⟨(3, .Cubic), by simp, hx⟩
  unfold is_degraded
  cases hdg : degradedGain c.name c.params with
  | some n => rfl
  | none =>
    cases hdp : degradedPoly c.name c.params with
    | none => rw [hdp] at hpoly; cases hpoly
    | some m => rfl

/-- An Exponential fit whose base is approximately 0 or 1 is degraded. -/
theorem degraded_of_exp_base {c : Complexity} {b : F} (hn : c.name = .Exponential)
    (hb : c.params.base = some b)
    (h : F.approxEq b (F.fin 0) = true ∨ F.approxEq b (F.fin 1) = true) :
    (is_degraded c.name c.params).isSome = true := by
  have hexp : (degradedExp c.name c.params).isSome = true := by
    unfold degradedExp
    rw [hn, hb]
    apply firstApprox_isSome
    rcases h with hx | hx
    · exact ⟨(0, .Constant), by simp, hx⟩
    · exact ⟨(1, .Constant), by simp, hx⟩
  unfold is_degraded
  cases hdg : degradedGain c.name c.params with
  | some n => rfl
  | none =>
    cases hdp : degradedPoly c.name c.params with
    | none =>
      cases hde : degradedExp c.name c.params with
      | none => rw [hde] at hexp; cases hexp
      | some m => rfl
    | some m => rfl

/-- The validity filter rejects a complexity with unset residuals. -/
theorem is_valid_false_of_residuals_none {c : Complexity}
    (h : c.params.residuals = none) : is_valid c = false := by
  unfold is_valid
  rw [h]
  rfl

/-- The validity filter rejects a complexity with unset gain
(`gain.unwrap_or(-1.0)` is negative). -/
theorem is_valid_false_of_gain_none {c : Complexity}
    (h : c.params.gain = none) : is_valid c = false := by
  unfold is_valid
  split
  · rfl
  · rw [h]
    have : F.lt ((none : Option F).getD (F.fin (-1))) (F.fin 0) = true := by
      with_unfolding_all decide
    rw [this]
    rfl

/-! ## C5: the validity filter's rejection conditions -/

/-- C5 counterexample: the claim demands rejection of every fitted
complexity whose gain is within `1e-5` of 0, but a Constant fit with gain
exactly 0 (finite residual, non-negative gain) passes the filter. -/
theorem C5_counterexample :
    F.approxEq (F.fin 0) (F.fin 0) = true ∧
    is_valid
      { name := .Constant, notationStr := "O(1)",
        params := { gain := some (F.fin 0), offset := some (F.fin 7),
                    residuals := some (F.fin 0), power := none, base := none },
        rank := 0 } = true := by
  constructor
  · with_unfolding_all decide
  · with_unfolding_all decide

/-- C5 amended: the validity filter rejects a fitted Complexity whenever any
of the following holds: its residual is present and not finite; its gain is
present and negative; its gain is present and within absolute tolerance
`1e-5` of 0 while the model is not Constant; it is Polynomial with a present
power within `1e-5` of 0, 1, 2 or 3; it is Exponential with a present base
within `1e-5` of 0 or 1. -/
theorem C5_validity_rejections :
    (∀ c : Complexity, ∀ r, c.params.residuals = some r → r.isFinite = false →
      is_valid c = false) ∧
    (∀ c : Complexity, ∀ g, c.params.gain = some g → F.lt g (F.fin 0) = true →
      is_valid c = false) ∧
    (∀ c : Complexity, ∀ g, c.name ≠ .Constant → c.params.gain = some g →
      F.approxEq g (F.fin 0) = true → is_valid c = false) ∧
    (∀ c : Complexity, ∀ p, c.name = .Polynomial → c.params.power = some p →
      (F.approxEq p (F.fin 0) = true ∨ F.approxEq p (F.fin 1) = true ∨
       F.approxEq p (F.fin 2) = true ∨ F.approxEq p (F.fin 3) = true) →
      is_valid c = false) ∧
    (∀ c : Complexity, ∀ b, c.name = .Exponential → c.params.base = some b →
      (F.approxEq b (F.fin 0) = true ∨ F.approxEq b (F.fin 1) = true) →
      is_valid c = false) := by
  refine ⟨?_, ?_, ?_, ?_, ?_⟩
  · intro c r hr hf
    unfold is_valid
    rw [hr]
    simp [hf]
  · intro c g hg hlt
    unfold is_valid
    split
    · rfl
    · rw [hg]
      simp only [Option.getD_some]
      rw [if_pos hlt]
  · intro c g hn hg ha
    exact is_valid_false_of_degraded c (degraded_of_gain_zero hn hg ha)
  · intro c p hn hp h
    exact is_valid_false_of_degraded c (degraded_of_poly_power hn hp h)
  · intro c b hn hb h
    exact is_valid_false_of_degraded c (degraded_of_exp_base hn hb h)

/-- C5 witness: each rejection condition evaluated at a concrete fitted
complexity. -/
theorem C5_validity_rejections_witness :
    is_valid
      { name := .Linear, notationStr := "O(n)",
        params := { gain := some (F.fin 1), offset := some (F.fin 0),
                    residuals := some F.inf, power := none, base := none },
        rank := 1000 } = false ∧
    is_valid
      { name := .Linear, notationStr := "O(n)",
        params := { gain := some (F.fin (-1)), offset := some (F.fin 0),
                    residuals := some (F.fin 0), power := none, base := none },
        rank := 1000 } = false ∧
    is_valid
      { name := .Quadratic, notationStr := "O(n^2)",
        params := { gain := some (F.fin 0), offset := some (F.fin 1),
                    residuals := some (F.fin 0), power := none, base := none },
        rank := 2000 } = false ∧
    is_valid
      { name := .Polynomial, notationStr := "O(n^m)",
        params := { gain := some (F.fin 4), offset := none,
                    residuals := some (F.fin 0), power := some (F.fin 2), base := none },
        rank := 2000 } = false ∧
    is_valid
      { name := .Exponential, notationStr := "O(c^n)",
        params := { gain := some (F.fin 4), offset := none,
                    residuals := some (F.fin 0), power := none, base := some (F.fin 1) },
        rank := 1000000 } = false :=
  ⟨C5_validity_rejections.1 _ F.inf rfl (by with_unfolding_all decide),
   C5_validity_rejections.2.1 _ (F.fin (-1)) rfl (by with_unfolding_all decide),
   C5_validity_rejections.2.2.1 _ (F.fin 0) (by with_unfolding_all decide) rfl
     (by with_unfolding_all decide),
   C5_validity_rejections.2.2.2.1 _ (F.fin 2) rfl rfl
     (Or.inr (Or.inr (Or.inl (by with_unfolding_all decide)))),
   C5_validity_rejections.2.2.2.2 _ (F.fin 1) rfl rfl
     (Or.inr (by with_unfolding_all decide))⟩

/-! ## C9: missing residual or gain is rejected -/

/-- C9: the validity filter rejects every Complexity whose params lack a
residual or lack a gain (an absent gain falls into the negative-gain check
through `unwrap_or(-1.0)`); in particular every baseline Complexity built
from a string, having no fitted params, is judged invalid. -/
theorem C9_missing_params_invalid :
    (∀ c : Complexity, c.params.residuals = none → is_valid c = false) ∧
    (∀ c : Complexity, c.params.gain = none → is_valid c = false) ∧
    (∀ s c, complexity s = .ok c → is_valid c = false) := by
  refine ⟨fun c h => is_valid_false_of_residuals_none h,
          fun c h => is_valid_false_of_gain_none h, ?_⟩
  intro s c h
  unfold complexity at h
  cases htf : name_try_from s with
  | error e => rw [htf] at h; exact Except.noConfusion h
  | ok n =>
    rw [htf] at h
    unfold buildComplexity at h
    simp only [Option.getD_none] at h
    cases hr : rank n Params.empty with
    | error e =>
      rw [hr] at h
      simp only [bind, Except.bind] at h
      exact Except.noConfusion h
    | ok r =>
      rw [hr] at h
      simp only [bind, Except.bind, pure, Except.pure, Except.ok.injEq] at h
      apply is_valid_false_of_residuals_none
      rw [← h]
      rfl

/-- C9 witness: a record with unset residuals, one with unset gain, and the
baseline built from `"O(1)"` are all rejected. -/
theorem C9_missing_params_invalid_witness :
    is_valid
      { name := .Linear, notationStr := "O(n)",
        params := { gain := some (F.fin 1), offset := some (F.fin 0),
                    residuals := none, power := none, base := none },
        rank := 1000 } = false ∧
    is_valid
      { name := .Linear, notationStr := "O(n)",
        params := { gain := none, offset := some (F.fin 0),
                    residuals := some (F.fin 0), power := none, base := none },
        rank := 1000 } = false ∧
    is_valid
      { name := .Constant, notationStr := "O(1)", params := Params.empty,
        rank := 0 } = false :=
  ⟨C9_missing_params_invalid.1 _ rfl,
   C9_missing_params_invalid.2.1 _ rfl,
   C9_missing_params_invalid.2.2 "O(1)" _ (by with_unfolding_all decide)⟩

/-! ## C10: Constant is exempt from the gain-zero degeneracy -/

/-- C10: the gain-near-zero rejection applies only to non-Constant models: a
Constant complexity with finite residual and present non-negative gain
within `1e-5` of 0 is never marked degraded and passes the validity filter. -/
theorem C10_constant_gain_zero_valid (c : Complexity) (g r : F)
    (hn : c.name = .Constant) (hg : c.params.gain = some g)
    (hnn : F.le (F.fin 0) g = true) (hz : F.approxEq g (F.fin 0) = true)
    (hr : c.params.residuals = some r) (hf : r.isFinite = true) :
    is_degraded c.name c.params = none ∧ is_valid c = true := by
  have hd : is_degraded c.name c.params = none := by
    unfold is_degraded degradedGain degradedPoly degradedExp
    rw [hn]
    simp
  have hq : ∃ q : ℚ, g = F.fin q := by
    cases g with
    | fin q => exact ⟨q, rfl⟩
    | nan => exact absurd hz (by with_unfolding_all decide)
    | inf => exact absurd hz (by with_unfolding_all decide)
    | ninf => exact absurd hz (by with_unfolding_all decide)
  obtain ⟨q, rfl⟩ := hq
  have hqnn : (0 : ℚ) ≤ q := by
    have := hnn
    unfold F.le F.lt at this
    simp only [Bool.or_eq_true, decide_eq_true_eq] at this
    rcases this with hlt | ⟨_, heq⟩
    · exact le_of_lt hlt
    · rw [F.fin.injEq] at heq
      exact le_of_eq heq
  have hltf : F.lt (F.fin q) (F.fin 0) = false := by
    unfold F.lt
    simpa using not_lt.mpr hqnn
  constructor
  · exact hd
  · unfold is_valid
    rw [hr, hg, hd]
    simp [hf, hltf]

/-- C10 witness: the Constant fit with gain 0, offset 7 and residual 0 is
not degraded and passes the filter. -/
theorem C10_constant_gain_zero_valid_witness :
    is_degraded
      (Complexity.name
        { name := .Constant, notationStr := "O(1)",
          params := { gain := some (F.fin 0), offset := some (F.fin 7),
                      residuals := some (F.fin 0), power := none, base := none },
          rank := 0 })
      (Complexity.params
        { name := .Constant, notationStr := "O(1)",
          params := { gain := some (F.fin 0), offset := some (F.fin 7),
                      residuals := some (F.fin 0), power := none, base := none },
          rank := 0 }) = none ∧
    is_valid
      { name := .Constant, notationStr := "O(1)",
        params := { gain := some (F.fin 0), offset := some (F.fin 7),
                    residuals := some (F.fin 0), power := none, base := none },
        rank := 0 } = true :=
  C10_constant_gain_zero_valid _ (F.fin 0) (F.fin 0) rfl rfl
    (by with_unfolding_all decide) (by with_unfolding_all decide) rfl rfl

/-- The claim-side model function table agrees with the source's
`get_function` whenever the latter succeeds. -/
theorem specFunction_of_get_function {ops : FloatOps} {name : Name} {p : Params}
    {f : F → F} (h : get_function ops name p = .ok f) :
    specFunction ops name p = some f := by
  cases name <;> cases hg : p.gain <;> cases ho : p.offset <;>
    cases hp : p.power <;> cases hb : p.base <;>
    simp_all [get_function, specFunction, F.powi2, F.powi3]

/-- The claim-side residual agrees with the source's
`calculate_residuals` whenever the latter succeeds. -/
theorem specResiduals_of_calculate {ops : FloatOps} {name : Name} {p : Params}
    {data : List (F × F)} {r : F}
    (h : calculate_residuals ops name p data = .ok r) :
    specResiduals ops name p data = some r := by
  unfold calculate_residuals at h
  cases hf : get_function ops name p with
  | error e =>
    rw [hf] at h
    simp only [bind, Except.bind] at h
    exact Except.noConfusion h
  | ok f =>
    rw [hf] at h
    simp only [bind, Except.bind, pure, Except.pure, Except.ok.injEq] at h
    unfold specResiduals
    rw [specFunction_of_get_function hf]
    simp only [Option.map_some']
    rw [h]

/-- The claim-side model function reads no residual field. -/
theorem specFunction_residuals_irrelevant (ops : FloatOps) (name : Name)
    (p : Params) (r2 : Option F) :
    specFunction ops name { p with residuals := r2 } = specFunction ops name p := by
  cases name <;> rfl

/-! ## C4: the stored residual is the true-space residual -/

/-- C4: whenever `fit` succeeds, the residual stored in the returned params
is exactly the sum over the observed points of `|y - f(x)|`, with `f` the
delinearized model function in original space (per the claim's table,
checked against the code through `specFunction`), not the linearized solver
residual (which `fit` discards). -/
theorem C4_fit_true_residual (ops : FloatOps) (solver : Solver) (name : Name)
    (data : List (F × F)) (c : Complexity)
    (h : fit ops solver name data = .ok c) :
    specResiduals ops c.name c.params data = c.params.residuals := by
  unfold fit at h
  cases hci : check_input name data with
  | error e =>
    rw [hci] at h
    simp only [bind, Except.bind] at h
    exact Except.noConfusion h
  | ok u =>
    rw [hci] at h
    simp only [bind, Except.bind] at h
    cases hs : solver (data.map fun xy => linearize ops name xy.1 xy.2) with
    | error e =>
      rw [hs] at h
      exact Except.noConfusion h
    | ok t =>
      rw [hs] at h
      obtain ⟨g, o, r0⟩ := t
      simp only [] at h
      cases hres : calculate_residuals ops name (delinearize ops name g o) data with
      | error e =>
        rw [hres] at h
        simp only [bind, Except.bind] at h
        exact Except.noConfusion h
      | ok res =>
        rw [hres] at h
        simp only [bind, Except.bind] at h
        cases hrk : rank name { delinearize ops name g o with residuals := some res } with
        | error e =>
          rw [hrk] at h
          simp only [bind, Except.bind] at h
          exact Except.noConfusion h
        | ok rk =>
          rw [hrk] at h
          simp only [bind, Except.bind, pure, Except.pure, Except.ok.injEq] at h
          subst h
          have h1 : specResiduals ops name
              { delinearize ops name g o with residuals := some res } data =
              specResiduals ops name (delinearize ops name g o) data := by
            unfold specResiduals
            rw [specFunction_residuals_irrelevant]
          exact h1.trans (specResiduals_of_calculate hres)

set_option maxRecDepth 4000 in
/-- C4 witness: the Linear fit of the closed example run stores exactly the
claim-side residual. -/
theorem C4_fit_true_residual_witness :
    specResiduals simpleOps egLinear.name egLinear.params [(F.fin 1, F.fin 3)] =
      egLinear.params.residuals :=
  C4_fit_true_residual simpleOps stubSolver .Linear [(F.fin 1, F.fin 3)] egLinear
    (by with_unfolding_all decide)

/-! ## C2: empty or all-zero input is rejected -/

/-- C2: on empty input, or input in which every point is `(0, 0)`,
`infer_complexity` fails with the `InvalidInput` flavour of the invalid-data
errors (the first model's `fit` rejects the input before anything can
panic).  The input check itself is modelled from the spec, its body being
absent from the sources. -/
theorem C2_invalid_input (ops : FloatOps) (solver : Solver) (data : List (F × F))
    (h : data = [] ∨ ∀ p ∈ data, p = (F.fin 0, F.fin 0)) :
    ∃ msg, infer_complexity ops solver data = .error (.InvalidInput msg) := by
  have hci : ∃ msg, check_input .Constant data = .error (.InvalidInput msg) := by
    rcases h with rfl | hall
    · exact ⟨"empty input data", rfl⟩
    · cases data with
      | nil => exact ⟨"empty input data", rfl⟩
      | cons hd tl =>
        refine ⟨"all data points are zero", ?_⟩
        unfold check_input
        rw [if_neg (by simp)]
        have hcond : ((hd :: tl).all fun p => decide (p.1 = F.fin 0 ∧ p.2 = F.fin 0)) = true := by
          rw [List.all_eq_true]
          intro x hx
          obtain rfl := hall x hx
          with_unfolding_all decide
        rw [if_pos hcond]
  obtain ⟨msg, hmsg⟩ := hci
  refine ⟨msg, ?_⟩
  have hfit : fit ops solver .Constant data = .error (.InvalidInput msg) := by
    unfold fit
    rw [hmsg]
    rfl
  have hfv : fitValid ops solver data all_names = .error (.InvalidInput msg) := by
    unfold all_names fitValid
    rw [hfit]
    rfl
  unfold infer_complexity
  rw [hfv]

/-- C2 witness: the empty input and the all-zero input both produce
`InvalidInput`. -/
theorem C2_invalid_input_witness :
    (∃ msg, infer_complexity simpleOps stubSolver [] = .error (.InvalidInput msg)) ∧
    (∃ msg, infer_complexity simpleOps stubSolver [(F.fin 0, F.fin 0)] =
      .error (.InvalidInput msg)) :=
  ⟨C2_invalid_input simpleOps stubSolver [] (Or.inl rfl),
   C2_invalid_input simpleOps stubSolver [(F.fin 0, F.fin 0)]
     (Or.inr (fun _p hp => List.mem_singleton.mp hp))⟩

/-! ## C8: notation round-trip -/

set_option maxRecDepth 4000 in
/-- Parsing the notation string of each model yields that model back. -/
theorem name_try_from_notationOf : ∀ n : Name, name_try_from (notationOf n) = .ok n := by
  intro n
  cases n with
  | Constant =>
    unfold name_try_from
    rw [show asciiLower (notationOf .Constant) = "o(1)" from by decide]
    with_unfolding_all decide
  | Logarithmic =>
    unfold name_try_from
    rw [show asciiLower (notationOf .Logarithmic) = "o(log n)" from by decide]
    with_unfolding_all decide
  | Linear =>
    unfold name_try_from
    rw [show asciiLower (notationOf .Linear) = "o(n)" from by decide]
    with_unfolding_all decide
  | Linearithmic =>
    unfold name_try_from
    rw [show asciiLower (notationOf .Linearithmic) = "o(n log n)" from by decide]
    with_unfolding_all decide
  | Quadratic =>
    unfold name_try_from
    rw [show asciiLower (notationOf .Quadratic) = "o(n^2)" from by decide]
    with_unfolding_all decide
  | Cubic =>
    unfold name_try_from
    rw [show asciiLower (notationOf .Cubic) = "o(n^3)" from by decide]
    with_unfolding_all decide
  | Polynomial =>
    unfold name_try_from
    rw [show asciiLower (notationOf .Polynomial) = "o(n^m)" from by decide]
    with_unfolding_all decide
  | Exponential =>
    unfold name_try_from
    rw [show asciiLower (notationOf .Exponential) = "o(c^n)" from by decide]
    with_unfolding_all decide

/-- Reduction of `complexity` once the parse and the build are known. -/
theorem complexity_of_try_from {s : String} {n : Name} {c : Complexity}
    (h : name_try_from s = .ok n) (hb : buildComplexity n none = .ok c) :
    complexity s = .ok c := by
  unfold complexity
  rw [h]
  exact hb

set_option maxRecDepth 4000 in
/-- C8: every baseline Complexity built from a notation or model-name string
round-trips: parsing its notation again succeeds and yields the same model;
strings matching no pattern fail with the parse error. -/
theorem C8_notation_roundtrip :
    (∀ s c, complexity s = .ok c →
      ∃ c2, complexity c.notationStr = .ok c2 ∧ c2.name = c.name) ∧
    (∀ s e, name_try_from s = .error e →
      complexity s = .error .ParseNotationError) := by
  constructor
  · intro s c h
    unfold complexity at h
    cases htf : name_try_from s with
    | error e => rw [htf] at h; exact Except.noConfusion h
    | ok n =>
      rw [htf] at h
      unfold buildComplexity at h
      simp only [Option.getD_none] at h
      cases hr : rank n Params.empty with
      | error e =>
        rw [hr] at h
        simp only [bind, Except.bind] at h
        exact Except.noConfusion h
      | ok r =>
        rw [hr] at h
        simp only [bind, Except.bind, pure, Except.pure, Except.ok.injEq] at h
        subst h
        cases n with
        | Constant =>
          exact ⟨{ name := .Constant, notationStr := "O(1)",
                   params := Params.empty, rank := 0 },
                 complexity_of_try_from (name_try_from_notationOf .Constant)
                   (by with_unfolding_all rfl), rfl⟩
        | Logarithmic =>
          exact ⟨{ name := .Logarithmic, notationStr := "O(log n)",
                   params := Params.empty, rank := 130 },
                 complexity_of_try_from (name_try_from_notationOf .Logarithmic)
                   (by with_unfolding_all rfl), rfl⟩
        | Linear =>
          exact ⟨{ name := .Linear, notationStr := "O(n)",
                   params := Params.empty, rank := 1000 },
                 complexity_of_try_from (name_try_from_notationOf .Linear)
                   (by with_unfolding_all rfl), rfl⟩
        | Linearithmic =>
          exact ⟨{ name := .Linearithmic, notationStr := "O(n log n)",
                   params := Params.empty, rank := 1130 },
                 complexity_of_try_from (name_try_from_notationOf .Linearithmic)
                   (by with_unfolding_all rfl), rfl⟩
        | Quadratic =>
          exact ⟨{ name := .Quadratic, notationStr := "O(n^2)",
                   params := Params.empty, rank := 2000 },
                 complexity_of_try_from (name_try_from_notationOf .Quadratic)
                   (by with_unfolding_all rfl), rfl⟩
        | Cubic =>
          exact ⟨{ name := .Cubic, notationStr := "O(n^3)",
                   params := Params.empty, rank := 3000 },
                 complexity_of_try_from (name_try_from_notationOf .Cubic)
                   (by with_unfolding_all rfl), rfl⟩
        | Polynomial => exact Except.noConfusion hr
        | Exponential =>
          exact ⟨{ name := .Exponential, notationStr := "O(c^n)",
                   params := Params.empty, rank := 1000000 },
                 complexity_of_try_from (name_try_from_notationOf .Exponential)
                   (by with_unfolding_all rfl), rfl⟩
  · intro s e h
    unfold complexity
    rw [h]

set_option maxRecDepth 4000 in
/-- C8 witness: the baseline built from `"cubic"` round-trips through its
notation `"O(n^3)"`, and the unrecognized string `"zzz"` is rejected. -/
theorem C8_notation_roundtrip_witness :
    (∃ c2, complexity "O(n^3)" = .ok c2 ∧ c2.name = Name.Cubic) ∧
    complexity "zzz" = .error .ParseNotationError := by
  have h1 : name_try_from "cubic" = .ok .Cubic := by
    unfold name_try_from
    rw [show asciiLower "cubic" = "cubic" from by decide]
    with_unfolding_all decide
  have h2 : buildComplexity .Cubic none =
      .ok { name := .Cubic, notationStr := "O(n^3)", params := Params.empty,
            rank := 3000 } := by
    with_unfolding_all rfl
  have h3 : name_try_from "zzz" = .error "cannot convert string to Name" := by
    unfold name_try_from
    rw [show asciiLower "zzz" = "zzz" from by decide]
    with_unfolding_all decide
  exact ⟨C8_notation_roundtrip.1 "cubic" _ (complexity_of_try_from h1 h2),
         C8_notation_roundtrip.2 "zzz" _ h3⟩

/-! ## C1: sorting and selection of the survivors -/

/-- Reduction of `infer_complexity` once the fit-and-filter result and its
sort are known. -/
theorem infer_eq_of_fitValid {ops : FloatOps} {solver : Solver}
    {data : List (F × F)} {fitted : List Complexity} {b : Complexity}
    {rest : List Complexity}
    (hfv : fitValid ops solver data all_names = .ok fitted)
    (hs : fitted.insertionSort (fun a b => resLe a b = true) = b :: rest) :
    infer_complexity ops solver data = .ok b (b :: rest) := by
  unfold infer_complexity
  rw [hfv]
  dsimp only []
  rw [hs]

/-- C1: when `infer_complexity` succeeds with `(best, all)`, the returned
`all` is a permutation of the validity-filter survivors (which the
fit-and-filter loop produced in catalog iteration order), it is sorted
ascending by the residual comparison, ties keep the catalog order (every
comparison-consistent pair of survivors keeps its relative order: a stable
sort, so nothing is re-sorted by rank), `best` is its first element, and
every member's residual is a present finite value (so the sort key is
exactly the true residual and the Rust comparator's `unwrap` cannot
panic). -/
theorem C1_infer_sorted_selection (ops : FloatOps) (solver : Solver)
    (data : List (F × F)) (best : Complexity) (allC : List Complexity)
    (h : infer_complexity ops solver data = .ok best allC) :
    ∃ survivors, fitValid ops solver data all_names = .ok survivors ∧
      allC.Perm survivors ∧
      List.Pairwise (fun a b => resLe a b = true) allC ∧
      (∀ a b : Complexity, [a, b].Sublist survivors → resLe a b = true →
        [a, b].Sublist allC) ∧
      allC.head? = some best ∧
      (∀ c ∈ allC, ∃ q : ℚ, c.params.residuals = some (F.fin q)) := by
  haveI : IsTrans Complexity (fun a b => resLe a b = true) :=
    ⟨fun _ _ _ => resLe_trans⟩
  haveI : IsTotal Complexity (fun a b => resLe a b = true) :=
    ⟨fun a b => (Bool.or_eq_true _ _).mp (resLe_total a b)⟩
  unfold infer_complexity at h
  cases hfv : fitValid ops solver data all_names with
  | error e => rw [hfv] at h; exact InferResult.noConfusion h
  | ok fitted =>
    rw [hfv] at h
    dsimp only [] at h
    cases hms : fitted.insertionSort (fun a b => resLe a b = true) with
    | nil => rw [hms] at h; exact InferResult.noConfusion h
    | cons b rest =>
      rw [hms] at h
      injection h with h1 h2
      subst h1
      subst h2
      refine ⟨fitted, rfl, ?_, ?_, ?_, rfl, ?_⟩
      · rw [← hms]
        exact List.perm_insertionSort _ fitted
      · rw [← hms]
        exact List.sorted_insertionSort _ fitted
      · intro a b2 hsub hle
        rw [← hms]
        exact List.pair_sublist_insertionSort hle hsub
      · intro c hc
        rw [← hms] at hc
        have hmem : c ∈ fitted := (List.mem_insertionSort (fun a b => resLe a b = true)).mp hc
        exact is_valid_residual_fin (fitValid_ok_valid hfv c hmem)

set_option maxRecDepth 4000 in
/-- C1 witness: the closed example run.  The survivors come out of the loop
in catalog order with the Constant fit first and residual 1, all others
residual 0; the sorted list starts with the Logarithmic fit and ends with
the Constant fit, ties kept in catalog order. -/
theorem C1_infer_sorted_selection_witness :
    ∃ survivors,
      fitValid simpleOps stubSolver [(F.fin 1, F.fin 3)] all_names = .ok survivors ∧
      egSorted.Perm survivors ∧
      List.Pairwise (fun a b => resLe a b = true) egSorted ∧
      (∀ a b : Complexity, [a, b].Sublist survivors → resLe a b = true →
        [a, b].Sublist egSorted) ∧
      egSorted.head? = some egLogarithmic ∧
      (∀ c ∈ egSorted, ∃ q : ℚ, c.params.residuals = some (F.fin q)) := by
  have hC : fit simpleOps stubSolver .Constant [(F.fin 1, F.fin 3)] = .ok egConstant := by
    with_unfolding_all rfl
  have hLg : fit simpleOps stubSolver .Logarithmic [(F.fin 1, F.fin 3)] = .ok egLogarithmic := by
    with_unfolding_all rfl
  have hLn : fit simpleOps stubSolver .Linear [(F.fin 1, F.fin 3)] = .ok egLinear := by
    with_unfolding_all rfl
  have hLt : fit simpleOps stubSolver .Linearithmic [(F.fin 1, F.fin 3)] = .ok egLinearithmic := by
    with_unfolding_all rfl
  have hQ : fit simpleOps stubSolver .Quadratic [(F.fin 1, F.fin 3)] = .ok egQuadratic := by
    with_unfolding_all rfl
  have hCu : fit simpleOps stubSolver .Cubic [(F.fin 1, F.fin 3)] = .ok egCubic := by
    with_unfolding_all rfl
  have hP : fit simpleOps stubSolver .Polynomial [(F.fin 1, F.fin 3)] = .ok egPolynomial := by
    with_unfolding_all rfl
  have hE : fit simpleOps stubSolver .Exponential [(F.fin 1, F.fin 3)] = .ok egExponential := by
    with_unfolding_all rfl
  have hnil : fitValid simpleOps stubSolver [(F.fin 1, F.fin 3)] [] = .ok [] := rfl
  have w8 : fitValid simpleOps stubSolver [(F.fin 1, F.fin 3)] [.Exponential] = .ok [] := by
    rw [fitValid_cons_ok hE hnil, if_neg (by with_unfolding_all decide)]
  have w7 : fitValid simpleOps stubSolver [(F.fin 1, F.fin 3)]
      [.Polynomial, .Exponential] = .ok [] := by
    rw [fitValid_cons_ok hP w8, if_neg (by with_unfolding_all decide)]
  have w6 : fitValid simpleOps stubSolver [(F.fin 1, F.fin 3)]
      [.Cubic, .Polynomial, .Exponential] = .ok [egCubic] := by
    rw [fitValid_cons_ok hCu w7, if_pos (by with_unfolding_all decide)]
  have w5 : fitValid simpleOps stubSolver [(F.fin 1, F.fin 3)]
      [.Quadratic, .Cubic, .Polynomial, .Exponential] = .ok [egQuadratic, egCubic] := by
    rw [fitValid_cons_ok hQ w6, if_pos (by with_unfolding_all decide)]
  have w4 : fitValid simpleOps stubSolver [(F.fin 1, F.fin 3)]
      [.Linearithmic, .Quadratic, .Cubic, .Polynomial, .Exponential] =
      .ok [egLinearithmic, egQuadratic, egCubic] := by
    rw [fitValid_cons_ok hLt w5, if_pos (by with_unfolding_all decide)]
  have w3 : fitValid simpleOps stubSolver [(F.fin 1, F.fin 3)]
      [.Linear, .Linearithmic, .Quadratic, .Cubic, .Polynomial, .Exponential] =
      .ok [egLinear, egLinearithmic, egQuadratic, egCubic] := by
    rw [fitValid_cons_ok hLn w4, if_pos (by with_unfolding_all decide)]
  have w2 : fitValid simpleOps stubSolver [(F.fin 1, F.fin 3)]
      [.Logarithmic, .Linear, .Linearithmic, .Quadratic, .Cubic, .Polynomial,
       .Exponential] =
      .ok [egLogarithmic, egLinear, egLinearithmic, egQuadratic, egCubic] := by
    rw [fitValid_cons_ok hLg w3, if_pos (by with_unfolding_all decide)]
  have hfv : fitValid simpleOps stubSolver [(F.fin 1, F.fin 3)] all_names =
      .ok [egConstant, egLogarithmic, egLinear, egLinearithmic, egQuadratic, egCubic] := by
    unfold all_names
    rw [fitValid_cons_ok hC w2, if_pos (by with_unfolding_all decide)]
  have hsort :
      ([egConstant, egLogarithmic, egLinear, egLinearithmic, egQuadratic, egCubic] :
        List Complexity).insertionSort (fun a b => resLe a b = true) =
      egLogarithmic :: [egLinear, egLinearithmic, egQuadratic, egCubic, egConstant] := by
    with_unfolding_all rfl
  exact C1_infer_sorted_selection simpleOps stubSolver [(F.fin 1, F.fin 3)]
    egLogarithmic egSorted (infer_eq_of_fitValid hfv hsort)
